import Mathlib

/-!
Verification of the commlink world-model training core
(src/training/model.py and src/training/train.py) against its
natural-language specification.

The numeric neural-network components (linear layers, LayerNorm, SiLU,
GRU cell, convolutions) are learned real-valued maps whose internals none
of the checked properties depend on; every claim below is about the
composition logic around them (loop structure, memory threading, shape,
indexing, error propagation, checkpoint policy).  They are therefore
embedded as opaque function fields of a parameter structure, and the
theorems quantify over all such parameter sets — matching the claims,
which are stated "for every parameter set".  All control flow, indexing
arithmetic, and error behaviour is translated from the Python source.
-/

/-- A predicted 3-D position, the output type of `TrajectoryDecoder`
(`nn.Linear(64, output_dim)` with `output_dim = 3`). -/
abbrev V3 := ℚ × ℚ × ℚ

/-- `torch.stack` on a list of tensors along a new axis: raises
`RuntimeError: stack expects a non-empty TensorList` when the list is
empty, otherwise produces the stacked sequence. -/
def torchStack {α : Type} (l : List α) : Except String (List α) :=
  if l.isEmpty then Except.error "stack expects a non-empty TensorList" else Except.ok l

/-- `actions[:, t] if actions.size(1) > t else actions[:, -1]`
(model.py line 249): take the t-th action when it exists, otherwise the
last one; `[:, -1]` on an empty sequence raises IndexError. -/
def torchIndexOrLast {α : Type} (actions : List α) (t : ℕ) : Except String α :=
  if h : t < actions.length then Except.ok (actions.get ⟨t, h⟩)
  else
    match actions.getLast? with
    | some a => Except.ok a
    | none => Except.error "IndexError: index -1 is out of bounds"

/-- The `DynamicsModel` module (model.py lines 90-144): its learned
components `input_proj` (concat + linear), the GRU cell, the zero
memory tensor `torch.zeros(1, batch, hidden_dim)`, and `output_proj`.
`L` is the latent type, `AL` the action-latent type, `H` the projected
hidden-input type, `M` the recurrent-memory type. -/
structure DynamicsModel (L AL H M : Type) where
  input_proj : L → AL → H
  gru : H → M → H × M
  zeros : M
  output_proj : H → L

namespace DynamicsModel

/-- `DynamicsModel.forward` (model.py lines 113-144): combine the two
latents, zero-init the hidden state when it is absent, run one GRU step,
and project back to latent width.  Returns (next_latent, next_hidden). -/
def forward {L AL H M : Type} (d : DynamicsModel L AL H M)
    (state_latent : L) (action_latent : AL) (hidden : Option M) : L × M :=
  let x := d.input_proj state_latent action_latent
  let h :=
    match hidden with
    | none => d.zeros
    | some h0 => h0
  let p := d.gru x h
  (d.output_proj p.1, p.2)

/-- One dynamics transition on an explicitly supplied memory: the
`hidden ≠ None` path of `DynamicsModel.forward`. -/
def step {L AL H M : Type} (d : DynamicsModel L AL H M)
    (state_latent : L) (action_latent : AL) (h : M) : L × M :=
  let x := d.input_proj state_latent action_latent
  let p := d.gru x h
  (d.output_proj p.1, p.2)

theorem forward_none {L AL H M : Type} (d : DynamicsModel L AL H M)
    (sl : L) (al : AL) : d.forward sl al none = d.step sl al d.zeros := rfl

theorem forward_some {L AL H M : Type} (d : DynamicsModel L AL H M)
    (sl : L) (al : AL) (h : M) : d.forward sl al (some h) = d.step sl al h := rfl

end DynamicsModel

/-- The `WorldModel` module (model.py lines 170-301): the capability flag
`use_images` and the learned components of the encoders, dynamics core
and decoder.  `S` is the state-vector type, `A` the action-vector type,
`I` the image type. -/
structure WorldModel (S A I L AL H M : Type) where
  use_images : Bool
  state_encoder : S → L
  image_encoder : I → L
  latent_fusion : L → L → L
  action_encoder : A → AL
  dynamics : DynamicsModel L AL H M
  trajectory_decoder : L → V3

namespace WorldModel

variable {S A I L AL H M : Type}

/-- `WorldModel.encode_state` (model.py lines 205-218): encode the state;
when image support is on and an image is supplied, fuse the two latents,
otherwise return the state latent alone. -/
def encode_state (m : WorldModel S A I L AL H M) (state : S) (image : Option I) : L :=
  let state_latent := m.state_encoder state
  if m.use_images then
    match image with
    | some img => m.latent_fusion state_latent (m.image_encoder img)
    | none => state_latent
  else state_latent

/-- The rollout loop body of `WorldModel.predict_trajectory`
(model.py lines 247-257): `t` is the step counter, the second argument
the number of remaining steps, then the current latent and the GRU
hidden state (absent before the first dynamics call). -/
def rolloutGo (m : WorldModel S A I L AL H M) (actions : List A) :
    ℕ → ℕ → L → Option M → Except String (List V3)
  | _, 0, _, _ => Except.ok []
  | t, k + 1, latent, hidden =>
    match torchIndexOrLast actions t with
    | Except.error e => Except.error e
    | Except.ok action =>
      let action_latent := m.action_encoder action
      let p := m.dynamics.forward latent action_latent hidden
      match rolloutGo m actions (t + 1) k p.1 (some p.2) with
      | Except.error e => Except.error e
      | Except.ok rest => Except.ok (m.trajectory_decoder p.1 :: rest)

/-- `WorldModel.predict_trajectory` (model.py lines 220-259): encode the
initial state once, run `horizon` dynamics steps feeding the model's own
latent back in, then `torch.stack` the collected positions. -/
def predict_trajectory (m : WorldModel S A I L AL H M)
    (state : S) (actions : List A) (image : Option I) (horizon : ℕ) :
    Except String (List V3) :=
  let latent := m.encode_state state image
  match rolloutGo m actions 0 horizon latent none with
  | Except.error e => Except.error e
  | Except.ok predictions => torchStack predictions

/-- `images[:, t] if images is not None else None` (model.py line 288):
the optional image at sequence index `t`. -/
def imageAt {I : Type} (images : Option (List I)) (t : ℕ) : Except String (Option I) :=
  match images with
  | none => Except.ok none
  | some imgs =>
    match imgs.get? t with
    | some img => Except.ok (some img)
    | none => Except.error "IndexError: image index out of bounds"

/-- The teacher-forced loop body of `WorldModel.forward`
(model.py lines 282-299): at each step the ground-truth state and action
at index `t` are fetched and re-encoded, the dynamics advanced on the
carried hidden state, and the next position decoded. -/
def teacherGo (m : WorldModel S A I L AL H M)
    (states : List S) (actions : List A) (images : Option (List I)) :
    ℕ → ℕ → Option M → Except String (List V3)
  | _, 0, _ => Except.ok []
  | t, k + 1, hidden =>
    match states.get? t, actions.get? t with
    | some state, some action =>
      match imageAt images t with
      | Except.error e => Except.error e
      | Except.ok image =>
        let latent := m.encode_state state image
        let action_latent := m.action_encoder action
        let p := m.dynamics.forward latent action_latent hidden
        match teacherGo m states actions images (t + 1) k (some p.2) with
        | Except.error e => Except.error e
        | Except.ok rest => Except.ok (m.trajectory_decoder p.1 :: rest)
    | _, _ => Except.error "IndexError: sequence index out of bounds"

/-- `WorldModel.forward` (model.py lines 261-301): teacher-forced mode,
iterating `seq_len - 1` steps and stacking the predictions. -/
def forward (m : WorldModel S A I L AL H M)
    (states : List S) (actions : List A) (images : Option (List I)) :
    Except String (List V3) :=
  match teacherGo m states actions images 0 (states.length - 1) none with
  | Except.error e => Except.error e
  | Except.ok predictions => torchStack predictions

/-- Formulation of the teacher-forced loop following the specification's
words on memory handling: the recurrent memory is threaded explicitly,
each step receives exactly the memory produced by the previous step, and
the all-zero memory appears only as the very first value passed in. -/
def teacherGoMem (m : WorldModel S A I L AL H M)
    (states : List S) (actions : List A) (images : Option (List I)) :
    ℕ → ℕ → M → Except String (List V3)
  | _, 0, _ => Except.ok []
  | t, k + 1, mem =>
    match states.get? t, actions.get? t with
    | some state, some action =>
      match imageAt images t with
      | Except.error e => Except.error e
      | Except.ok image =>
        let latent := m.encode_state state image
        let action_latent := m.action_encoder action
        let p := m.dynamics.step latent action_latent mem
        match teacherGoMem m states actions images (t + 1) k p.2 with
        | Except.error e => Except.error e
        | Except.ok rest => Except.ok (m.trajectory_decoder p.1 :: rest)
    | _, _ => Except.error "IndexError: sequence index out of bounds"

/-- Teacher-forced mode per the specification's memory discipline: the
memory starts as the all-zero vector at the first dynamics step of the
sequence and is carried from step to step afterwards. -/
def forwardMemSpec (m : WorldModel S A I L AL H M)
    (states : List S) (actions : List A) (images : Option (List I)) :
    Except String (List V3) :=
  match teacherGoMem m states actions images 0 (states.length - 1) m.dynamics.zeros with
  | Except.error e => Except.error e
  | Except.ok predictions => torchStack predictions

/-- Rollout loop with explicitly threaded memory, following the
specification's words on memory handling. -/
def rolloutGoMem (m : WorldModel S A I L AL H M) (actions : List A) :
    ℕ → ℕ → L → M → Except String (List V3)
  | _, 0, _, _ => Except.ok []
  | t, k + 1, latent, mem =>
    match torchIndexOrLast actions t with
    | Except.error e => Except.error e
    | Except.ok action =>
      let action_latent := m.action_encoder action
      let p := m.dynamics.step latent action_latent mem
      match rolloutGoMem m actions (t + 1) k p.1 p.2 with
      | Except.error e => Except.error e
      | Except.ok rest => Except.ok (m.trajectory_decoder p.1 :: rest)

/-- Rollout mode per the specification's memory discipline: the memory
starts as the all-zero vector at the first dynamics step of the rollout
and is carried from step to step afterwards. -/
def predictTrajectoryMemSpec (m : WorldModel S A I L AL H M)
    (state : S) (actions : List A) (image : Option I) (horizon : ℕ) :
    Except String (List V3) :=
  let latent := m.encode_state state image
  match rolloutGoMem m actions 0 horizon latent m.dynamics.zeros with
  | Except.error e => Except.error e
  | Except.ok predictions => torchStack predictions

theorem teacherGo_some_eq (m : WorldModel S A I L AL H M)
    (states : List S) (actions : List A) (images : Option (List I)) :
    ∀ (k t : ℕ) (h : M),
      teacherGo m states actions images t k (some h)
        = teacherGoMem m states actions images t k h := by
  intro k
  induction k with
  | zero => intro t h; rfl
  | succ k ih =>
    intro t h
    simp only [teacherGo, teacherGoMem, DynamicsModel.forward_some]
    cases states.get? t with
    | none => rfl
    | some state =>
      cases actions.get? t with
      | none => rfl
      | some action =>
        cases imageAt images t with
        | error e => rfl
        | ok image => simp only [ih]

theorem teacherGo_none_eq (m : WorldModel S A I L AL H M)
    (states : List S) (actions : List A) (images : Option (List I)) :
    ∀ (k t : ℕ),
      teacherGo m states actions images t k none
        = teacherGoMem m states actions images t k m.dynamics.zeros := by
  intro k t
  cases k with
  | zero => rfl
  | succ k =>
    simp only [teacherGo, teacherGoMem, DynamicsModel.forward_none]
    cases states.get? t with
    | none => rfl
    | some state =>
      cases actions.get? t with
      | none => rfl
      | some action =>
        cases imageAt images t with
        | error e => rfl
        | ok image => simp only [teacherGo_some_eq]

theorem rolloutGo_some_eq (m : WorldModel S A I L AL H M) (actions : List A) :
    ∀ (k t : ℕ) (latent : L) (h : M),
      rolloutGo m actions t k latent (some h)
        = rolloutGoMem m actions t k latent h := by
  intro k
  induction k with
  | zero => intro t latent h; rfl
  | succ k ih =>
    intro t latent h
    simp only [rolloutGo, rolloutGoMem, DynamicsModel.forward_some]
    cases torchIndexOrLast actions t with
    | error e => rfl
    | ok action => simp only [ih]

theorem rolloutGo_none_eq (m : WorldModel S A I L AL H M) (actions : List A) :
    ∀ (k t : ℕ) (latent : L),
      rolloutGo m actions t k latent none
        = rolloutGoMem m actions t k latent m.dynamics.zeros := by
  intro k t latent
  cases k with
  | zero => rfl
  | succ k =>
    simp only [rolloutGo, rolloutGoMem, DynamicsModel.forward_none]
    cases torchIndexOrLast actions t with
    | error e => rfl
    | ok action => simp only [rolloutGo_some_eq]

end WorldModel

/-! ## Sequence extractor (train.py, `EpisodeDataset`) -/

/-- One recorded frame's `state` object (train.py lines 112-119):
position(3) + velocity(3) + orientation(3) + angular_velocity(3). -/
structure FrameState where
  position : List ℚ
  velocity : List ℚ
  orientation : List ℚ
  angular_velocity : List ℚ
  deriving DecidableEq

/-- One recorded frame's `action` object (train.py lines 122-129). -/
structure FrameAction where
  throttle : ℚ
  roll : ℚ
  pitch : ℚ
  yaw : ℚ
  deriving DecidableEq

/-- One frame of an episode file. -/
structure Frame where
  state : FrameState
  action : FrameAction
  deriving DecidableEq

/-- An episode: its ordered list of frames. -/
structure Episode where
  frames : List Frame
  deriving DecidableEq

/-- `state_vec` built by `EpisodeDataset.__getitem__` (train.py lines
114-119): concatenation of the four state components. -/
def stateVec (f : Frame) : List ℚ :=
  f.state.position ++ f.state.velocity ++ f.state.orientation ++ f.state.angular_velocity

/-- `action_vec` built by `EpisodeDataset.__getitem__` (train.py lines
124-129). -/
def actionVec (f : Frame) : List ℚ :=
  [f.action.throttle, f.action.roll, f.action.pitch, f.action.yaw]

/-- The extractor's random start offset (train.py lines 102-103):
`max_start = len(frames) - seq_len` (Python int subtraction, so it can be
negative) and `start_idx = np.random.randint(0, max(1, max_start + 1))`.
`np.random.randint(0, high)` draws uniformly from `[0, high)`; the draw
is modelled by reducing an arbitrary source value `rand` modulo `high`,
so the reachable offsets are exactly `[0, high)`. -/
def startIndex (frameLen seq_len rand : ℕ) : ℕ :=
  let max_start : ℤ := (frameLen : ℤ) - (seq_len : ℤ)
  let high : ℤ := max 1 (max_start + 1)
  rand % high.toNat

/-- The windowing loop of `EpisodeDataset.__getitem__` (train.py lines
109-110): frames `start_idx .. start_idx + seq_len - 1`, each index
clamped by `min(i, len(frames) - 1)`; on an empty frame list Python's
`frames[-1]` raises IndexError. -/
def windowFrames (frames : List Frame) (start_idx seq_len : ℕ) : Except String (List Frame) :=
  (List.range seq_len).mapM fun i =>
    match frames.get? (min (start_idx + i) (frames.length - 1)) with
    | some f => Except.ok f
    | none => Except.error "IndexError: list index out of range"

/-- The `EpisodeDataset` object after `__init__`: the retained episodes
and the configured sequence length. -/
structure EpisodeDataset where
  episodes : List Episode
  seq_len : ℕ
  deriving DecidableEq

namespace EpisodeDataset

/-- `EpisodeDataset.__init__` (train.py lines 77-90): keep every episode
file (image companion files excluded from the input list) whose frame
count is at least `seq_len`.  The constructor only prints a summary; it
returns normally no matter how many episodes qualify. -/
def init (files : List Episode) (seq_len : ℕ) : EpisodeDataset :=
  { episodes := files.filter fun e => decide (seq_len ≤ e.frames.length)
    seq_len := seq_len }

/-- `EpisodeDataset.__len__` (train.py lines 92-93): ten virtual samples
per qualifying episode. -/
def len (d : EpisodeDataset) : ℕ := d.episodes.length * 10

/-- A sample: (states, actions, targets), each a list of per-step
rational vectors. -/
abbrev Sample := List (List ℚ) × List (List ℚ) × List (List ℚ)

/-- `EpisodeDataset.__getitem__` (train.py lines 95-138): select episode
`idx % len(self.episodes)` (Python `%` raises ZeroDivisionError when the
episode list is empty), draw the random start offset, extract the
clamped window, and build the state/action/target arrays; the targets
are the position slice of `states[1:]`. -/
def getitem (d : EpisodeDataset) (idx rand : ℕ) : Except String Sample :=
  if hzero : d.episodes.length = 0 then
    Except.error "ZeroDivisionError: integer division or modulo by zero"
  else
    let ep := d.episodes.get ⟨idx % d.episodes.length, Nat.mod_lt idx (Nat.pos_of_ne_zero hzero)⟩
    let frames := ep.frames
    let start_idx := startIndex frames.length d.seq_len rand
    match windowFrames frames start_idx d.seq_len with
    | Except.error e => Except.error e
    | Except.ok window =>
      let states := window.map stateVec
      let actions := window.map actionVec
      let targets := (states.drop 1).map fun s => s.take 3
      Except.ok (states, actions, targets)

end EpisodeDataset

/-! ## Trainer (train.py, `Trainer`) -/

/-- Python `int(...)` applied to a float/rational value: truncation
toward zero. -/
def pyInt (q : ℚ) : ℤ := if 0 ≤ q then ⌊q⌋ else -⌊-q⌋

/-- The rolling average over `epoch_times[-5:]` used by
`Trainer.estimate_eta` (train.py lines 263-265). -/
def lastFiveAvg (epoch_times : List ℚ) : ℚ :=
  let recent_times := epoch_times.drop (epoch_times.length - 5)
  recent_times.sum / (recent_times.length : ℚ)

namespace Trainer

/-- `Trainer.estimate_eta` (train.py lines 258-270): `None` with fewer
than two recorded epoch durations; otherwise the rolling average of the
last five durations times `total_epochs - current_epoch`, converted with
`int(...)`. -/
def estimate_eta (epoch_times : List ℚ) (current_epoch total_epochs : ℕ) : Option ℤ :=
  if epoch_times.length < 2 then none
  else
    let recent_times := epoch_times.drop (epoch_times.length - 5)
    let avg_epoch_time := recent_times.sum / (recent_times.length : ℚ)
    let remaining_epochs : ℤ := (total_epochs : ℤ) - (current_epoch : ℤ)
    some (pyInt (avg_epoch_time * (remaining_epochs : ℚ)))

/-- `Trainer.log_metrics` (train.py lines 216-224): when both the
supabase client and the run id are configured, perform the registry
insert — whose outcome (success or raised error) is the external call's
result, returned as-is since no exception handler wraps it; otherwise do
nothing. -/
def log_metrics (hasSupabase hasRunId : Bool)
    (insertExec : ℕ → ℚ → ℚ → Except String Unit)
    (epoch : ℕ) (loss trajectory_mse : ℚ) : Except String Unit :=
  if hasSupabase && hasRunId then insertExec epoch loss trajectory_mse else Except.ok ()

/-- `Trainer.update_run_status` (train.py lines 226-231): same guard, no
exception handler around the registry update. -/
def update_run_status (hasSupabase hasRunId : Bool)
    (updateExec : String → Except String Unit)
    (status : String) : Except String Unit :=
  if hasSupabase && hasRunId then updateExec status else Except.ok ()

/-- `Trainer.update_progress` (train.py lines 233-248): same guard, no
exception handler around the registry update. -/
def update_progress (hasSupabase hasRunId : Bool)
    (updateExec : String → ℚ → Option ℤ → Except String Unit)
    (current_step : String) (progress : ℚ) (eta_seconds : Option ℤ) : Except String Unit :=
  if hasSupabase && hasRunId then updateExec current_step progress eta_seconds else Except.ok ()

end Trainer

/-- `epoch_loss / max(num_batches, 1)` (train.py lines 377-378): the
epoch's averaged loss/error, with `num_batches` the number of batches
the epoch's loop accumulated. -/
def epochAvg (batchLosses : List ℚ) : ℚ :=
  batchLosses.sum / ((max batchLosses.length 1 : ℕ) : ℚ)

/-- One externally visible action of `Trainer.train`: a registry call it
issues or a checkpoint file it writes.  Checkpoint events carry the
0-based `epoch` value passed to `save_checkpoint`. -/
inductive TrainEvent where
  | statusUpdate (status : String)
  | runsStartUpdate
  | progressUpdate (current_step : String) (progress : ℚ) (eta_seconds : Option ℤ)
  | metricsInsert (epoch : ℕ) (loss : ℚ) (trajectory_mse : ℚ)
  | saveBest (epoch : ℕ)
  | saveNumbered (epoch : ℕ)
  deriving DecidableEq

/-- `is_best = avg_mse < best_mse` (train.py line 391), with the initial
`best_mse = float("inf")` modelled as `none`. -/
def isBestStep : Option ℚ → ℚ → Bool
  | none, _ => true
  | some best_mse, avg_mse => decide (avg_mse < best_mse)

/-- The `best_mse` value after one epoch (train.py lines 391-393). -/
def stepBest (best : Option ℚ) (avg : ℚ) : Option ℚ :=
  if isBestStep best avg then some avg else best

/-- The events the body of one epoch of `Trainer.train` emits (train.py
lines 380-406), in program order: the progress update, the metrics row,
the best-checkpoint write when the averaged error strictly improved, and
the numbered checkpoint write on every 10th epoch.  `epoch` is 0-based. -/
def epochEvents (epoch epochs : ℕ) (avg : ℚ) (is_best : Bool) (eta : Option ℤ) :
    List TrainEvent :=
  [TrainEvent.progressUpdate "training" (((epoch + 1 : ℕ) : ℚ) / ((epochs : ℕ) : ℚ)) eta,
   TrainEvent.metricsInsert (epoch + 1) avg avg]
  ++ (if is_best then [TrainEvent.saveBest epoch] else [])
  ++ (if (epoch + 1) % 10 = 0 then [TrainEvent.saveNumbered epoch] else [])

/-- The epoch loop of `Trainer.train` (train.py lines 337-406), run from
epoch `e` for `k` more epochs with current best error `best`:
`batchLosses e` lists the per-batch losses of epoch `e` (one entry per
batch of the loader) and `times e` its measured duration.  Returns the
emitted events and the final `best_mse`. -/
def trainGo (batchLosses : ℕ → List ℚ) (times : ℕ → ℚ) (epochs : ℕ) :
    ℕ → ℕ → Option ℚ → List TrainEvent × Option ℚ
  | _, 0, best => ([], best)
  | e, k + 1, best =>
    let avg := epochAvg (batchLosses e)
    let is_best := isBestStep best avg
    let eta := Trainer.estimate_eta ((List.range (e + 1)).map times) (e + 1) epochs
    let r := trainGo batchLosses times epochs (e + 1) k (stepBest best avg)
    (epochEvents e epochs avg is_best eta ++ r.1, r.2)

/-- The full event trace of `Trainer.train` (train.py lines 304-419):
the "training" status update and the start-fields update (the latter
guarded by the configuration check inlined in `train`), the epoch loop,
then on completion the "evaluating" status update and the final progress
update. -/
def trainEvents (hasSupabase hasRunId : Bool)
    (batchLosses : ℕ → List ℚ) (times : ℕ → ℚ) (epochs : ℕ) : List TrainEvent :=
  [TrainEvent.statusUpdate "training"]
  ++ (if hasSupabase && hasRunId then [TrainEvent.runsStartUpdate] else [])
  ++ (trainGo batchLosses times epochs 0 epochs none).1
  ++ [TrainEvent.statusUpdate "evaluating",
      TrainEvent.progressUpdate "evaluating" 1 (some 0)]

/-- The status string a trace element pushes, if any. -/
def statusOf : TrainEvent → Option String
  | TrainEvent.statusUpdate s => some s
  | _ => none

/-! ## Claim theorems: world model -/

/-- C10: when the model is built with image support enabled but
`encode_state` is called with `image = None`, it silently returns the
state-encoder output alone — the fusion projection is skipped and no
error is raised.  Stated for every parameter set, so it covers the
image-enabled (`use_images = true`) and the image-free model alike:
on imageless input both follow the same state-only encoding path. -/
theorem encode_state_image_none {S A I L AL H M : Type}
    (m : WorldModel S A I L AL H M) (state : S) :
    m.encode_state state none = m.state_encoder state := by
  cases h : m.use_images <;> simp [WorldModel.encode_state, h]

/-- C2 (code behaviour at the failing input): for every initial state,
action sequence and parameter set, `predict_trajectory` with
`horizon = 0` collects no predictions, so the final
`torch.stack(predictions, dim=1)` is applied to an empty list and
raises — it does not return an empty trajectory tensor. -/
theorem predict_trajectory_horizon_zero_raises {S A I L AL H M : Type}
    (m : WorldModel S A I L AL H M) (state : S) (actions : List A) (image : Option I) :
    m.predict_trajectory state actions image 0
      = Except.error "stack expects a non-empty TensorList" := rfl

/-- C8: in teacher-forced mode and in rollout mode alike, the run of the
loop with the source's optional-memory convention (`hidden = None`
before the first dynamics step, the returned hidden carried afterwards)
equals the run of the specification's formulation in which the memory is
the all-zero vector exactly once — as the value entering the first
dynamics step — and every later step receives the memory produced by the
step before it. -/
theorem recurrent_memory_threading {S A I L AL H M : Type}
    (m : WorldModel S A I L AL H M)
    (states : List S) (actions : List A) (images : Option (List I))
    (state : S) (acts : List A) (image : Option I) (horizon : ℕ) :
    m.forward states actions images = m.forwardMemSpec states actions images
    ∧ m.predict_trajectory state acts image horizon
        = m.predictTrajectoryMemSpec state acts image horizon := by
  constructor
  · simp only [WorldModel.forward, WorldModel.forwardMemSpec, WorldModel.teacherGo_none_eq]
  · simp only [WorldModel.predict_trajectory, WorldModel.predictTrajectoryMemSpec,
      WorldModel.rolloutGo_none_eq]

theorem teacherGo_ok_length {S A I L AL H M : Type} (m : WorldModel S A I L AL H M)
    (states : List S) (actions : List A) :
    ∀ (k t : ℕ) (hidden : Option M), t + k ≤ states.length → t + k ≤ actions.length →
      ∃ ps, WorldModel.teacherGo m states actions none t k hidden = Except.ok ps
        ∧ ps.length = k := by
  intro k
  induction k with
  | zero => intro t hidden h1 h2; exact ⟨[], rfl, rfl⟩
  | succ k ih =>
    intro t hidden h1 h2
    have hs : t < states.length := by omega
    have ha : t < actions.length := by omega
    have hsq : states.get? t = some (states.get ⟨t, hs⟩) := List.get?_eq_get hs
    have haq : actions.get? t = some (actions.get ⟨t, ha⟩) := List.get?_eq_get ha
    obtain ⟨ps, hps, hlen⟩ :=
      ih (t + 1)
        (some ((m.dynamics.forward
          (m.encode_state (states.get ⟨t, hs⟩) none)
          (m.action_encoder (actions.get ⟨t, ha⟩)) hidden).2))
        (by omega) (by omega)
    refine ⟨m.trajectory_decoder ((m.dynamics.forward
      (m.encode_state (states.get ⟨t, hs⟩) none)
      (m.action_encoder (actions.get ⟨t, ha⟩)) hidden).1) :: ps, ?_, by simp [hlen]⟩
    simp only [WorldModel.teacherGo, hsq, haq, WorldModel.imageAt, hps]

/-- C6: for every batch of state/action sequences of length `L ≥ 2` and
every parameter set, teacher-forced mode returns exactly `L - 1`
position predictions (per batch element; the batch dimension is the
elementwise map of this single-sequence semantics, and each prediction
is a 3-vector by the decoder's output type `V3`). -/
theorem forward_prediction_count {S A I L AL H M : Type}
    (m : WorldModel S A I L AL H M) (states : List S) (actions : List A)
    (hL : 2 ≤ states.length) (hlen : actions.length = states.length) :
    (m.forward states actions none).map List.length
      = Except.ok (states.length - 1) := by
  obtain ⟨ps, hps, hlen2⟩ :=
    teacherGo_ok_length m states actions (states.length - 1) 0 none (by omega) (by omega)
  have hne : ps.isEmpty = false := by
    cases ps with
    | nil => simp at hlen2; omega
    | cons a l => rfl
  simp [WorldModel.forward, hps, torchStack, hne, Except.map, hlen2]

/-- A concrete parameter set over unit carrier types, used to evaluate
the universally quantified model theorems at a specific input. -/
def unitModel : WorldModel Unit Unit Unit Unit Unit Unit Unit where
  use_images := false
  state_encoder := fun _ => ()
  image_encoder := fun _ => ()
  latent_fusion := fun _ _ => ()
  action_encoder := fun _ => ()
  dynamics :=
    { input_proj := fun _ _ => ()
      gru := fun _ _ => ((), ())
      zeros := ()
      output_proj := fun _ => () }
  trajectory_decoder := fun _ => (0, 0, 0)

theorem forward_prediction_count_witness :
    (WorldModel.forward unitModel [(), ()] [(), ()] none).map List.length
      = Except.ok (([(), ()] : List Unit).length - 1) :=
  forward_prediction_count unitModel [(), ()] [(), ()] (by decide) (by decide)

/-! ## Claim theorems: sequence extractor -/

/-- A 5-frame episode: too short for the default sequence length 20, so
it does not qualify. -/
def shortFrame : Frame :=
  { state :=
      { position := [0, 0, 0]
        velocity := [0, 0, 0]
        orientation := [0, 0, 0]
        angular_velocity := [0, 0, 0] }
    action := { throttle := 0, roll := 0, pitch := 0, yaw := 0 } }

def shortEpisode : Episode := { frames := List.replicate 5 shortFrame }

/-- C1 (code behaviour at the failing input): with a data directory whose
only episode has 5 frames and `seq_len = 20` there are zero qualifying
episodes, yet the constructor returns normally with an empty episode
list and a virtual length of 0 — no descriptive error is raised — and
indexing the dataset then fails with the ZeroDivisionError of
`idx % len(self.episodes)`.  The claimed fail-fast construction does not
happen. -/
theorem episodeDataset_zero_qualifying_behaviour :
    (EpisodeDataset.init [shortEpisode] 20).episodes = []
    ∧ (EpisodeDataset.init [shortEpisode] 20).len = 0
    ∧ (EpisodeDataset.init [shortEpisode] 20).getitem 0 0
        = Except.error "ZeroDivisionError: integer division or modulo by zero" := by
  refine ⟨rfl, rfl, rfl⟩

/-- C4 counterexample: a qualifying episode with 21 frames and L = 20.
The extractor can draw the start offset 1 (the modelled draw source 1
yields it, matching `np.random.randint(0, max(1, 21 - 20 + 1)) = 1`),
and 1 is not strictly less than `max(1, frame_count - L) = 1`, so the
claimed bound on the drawn offset is false. -/
theorem startIndex_exceeds_claimed_bound :
    startIndex 21 20 1 = 1 ∧ ¬ (startIndex 21 20 1 < max 1 (21 - 20)) := by
  refine ⟨by decide, by decide⟩

/-- C4 amended: the random start offset is drawn uniformly from
`[0, max(1, frame_count - L + 1))`: every value the extractor can draw
is strictly less than `max(1, frame_count - L + 1)` (for qualifying
episodes, at most `frame_count - L`, so the extracted window always fits
inside the episode). -/
theorem startIndex_lt_bound (frameLen seq_len rand : ℕ) :
    startIndex frameLen seq_len rand < max 1 (frameLen - seq_len + 1) := by
  have htn : (max 1 ((frameLen : ℤ) - (seq_len : ℤ) + 1)).toNat
      = max 1 (frameLen - seq_len + 1) := by
    rcases Nat.le_total seq_len frameLen with h | h
    · rw [max_eq_right, max_eq_right] <;> omega
    · rw [max_eq_left, max_eq_left] <;> omega
  simp only [startIndex]
  rw [htn]
  exact Nat.mod_lt rand (by omega)

/-! ## Claim theorems: trainer registry calls and ETA -/

/-- C3 (code behaviour at the failing input): with the supabase client
and run id both configured, an error raised by the external registry
call inside `log_metrics`, `update_run_status` or `update_progress` is
returned to the caller — there is no exception handler around the calls,
so a registry failure propagates into the training loop instead of being
caught and logged.  (With the registry unconfigured the calls are
skipped, which is the only guard present.) -/
theorem registry_error_propagates :
    Trainer.log_metrics true true (fun _ _ _ => Except.error "ConnectionError") 1 0 0
        = Except.error "ConnectionError"
    ∧ Trainer.update_run_status true true (fun _ => Except.error "ConnectionError") "training"
        = Except.error "ConnectionError"
    ∧ Trainer.update_progress true true (fun _ _ _ => Except.error "ConnectionError")
        "training" 0 none
        = Except.error "ConnectionError"
    ∧ Trainer.log_metrics false false (fun _ _ _ => Except.error "ConnectionError") 1 0 0
        = Except.ok () := by
  refine ⟨rfl, rfl, rfl, rfl⟩

/-- C7 counterexample: with recorded epoch durations `[3, 2]` (two
durations, so an ETA is produced), current epoch 7 of 10 (3 epochs
remaining), the mean of the most recent durations is `5/2` and the
claimed value `mean × remaining` is `15/2`; the code returns
`int(7.5) = 7`, which differs. -/
theorem estimate_eta_not_exact_product :
    Trainer.estimate_eta [3, 2] 7 10 = some 7
    ∧ lastFiveAvg [3, 2] * ((10 : ℚ) - (7 : ℚ)) = 15 / 2
    ∧ ¬ (((7 : ℤ) : ℚ) = 15 / 2) := by
  refine ⟨?_, ?_, ?_⟩
  · simp only [Trainer.estimate_eta]
    norm_num [pyInt]
  · norm_num [lastFiveAvg]
  · norm_num

/-- C7 amended: the ETA estimator returns no value when fewer than 2
epoch durations have been recorded; once at least 2 have been recorded
it returns the mean of the most recent 5 epoch durations multiplied by
the number of remaining epochs, truncated to an integer second count by
Python's `int(...)` — in particular, with durations `[10,10,10,10,10]`
and 5 epochs remaining the product is exact and the result is 50. -/
theorem estimate_eta_amended (epoch_times : List ℚ) (current total : ℕ) :
    (epoch_times.length < 2 → Trainer.estimate_eta epoch_times current total = none)
    ∧ (2 ≤ epoch_times.length →
        Trainer.estimate_eta epoch_times current total
          = some (pyInt (lastFiveAvg epoch_times * (((total : ℤ) - (current : ℤ) : ℤ) : ℚ)))) := by
  constructor
  · intro h
    simp [Trainer.estimate_eta, h]
  · intro h
    simp [Trainer.estimate_eta, lastFiveAvg, Nat.not_lt.2 h]

theorem estimate_eta_amended_witness :
    Trainer.estimate_eta [10, 10, 10, 10, 10] 5 10 = some 50 := by
  have h := (estimate_eta_amended [10, 10, 10, 10, 10] 5 10).2 (by decide)
  rw [h]
  norm_num [lastFiveAvg, pyInt]

/-! ## Claim theorems: trainer status transitions and checkpoint policy -/

theorem epochEvents_no_status (e E : ℕ) (avg : ℚ) (ib : Bool) (eta : Option ℤ) :
    (epochEvents e E avg ib eta).filterMap statusOf = [] := by
  cases ib <;> by_cases h10 : (e + 1) % 10 = 0 <;>
    simp [epochEvents, h10, statusOf]

theorem trainGo_no_status (bl : ℕ → List ℚ) (tm : ℕ → ℚ) (E : ℕ) :
    ∀ (k e : ℕ) (b : Option ℚ),
      ((trainGo bl tm E e k b).1).filterMap statusOf = [] := by
  intro k
  induction k with
  | zero => intro e b; simp [trainGo]
  | succ k ih =>
    intro e b
    simp [trainGo, List.filterMap_append, epochEvents_no_status, ih]

/-- C9: during a training run the Trainer pushes exactly the status
transitions "training" (at training start) and "evaluating" (at training
completion) to the external registry, in that order, and never sets the
run status to "completed" or "failed" itself — for every configuration,
every sequence of per-epoch batch losses and durations, and every epoch
count. -/
theorem trainer_status_transitions (hasSupabase hasRunId : Bool)
    (batchLosses : ℕ → List ℚ) (times : ℕ → ℚ) (epochs : ℕ) :
    (trainEvents hasSupabase hasRunId batchLosses times epochs).filterMap statusOf
        = ["training", "evaluating"]
    ∧ TrainEvent.statusUpdate "completed" ∉ trainEvents hasSupabase hasRunId batchLosses times epochs
    ∧ TrainEvent.statusUpdate "failed" ∉ trainEvents hasSupabase hasRunId batchLosses times epochs := by
  have hmain : (trainEvents hasSupabase hasRunId batchLosses times epochs).filterMap statusOf
      = ["training", "evaluating"] := by
    by_cases hc : hasSupabase && hasRunId <;>
      simp [trainEvents, List.filterMap_append, trainGo_no_status, statusOf, hc]
  refine ⟨hmain, ?_, ?_⟩
  · intro hmem
    have h2 : "completed" ∈ (trainEvents hasSupabase hasRunId batchLosses times epochs).filterMap statusOf :=
      List.mem_filterMap.2 ⟨TrainEvent.statusUpdate "completed", hmem, rfl⟩
    rw [hmain] at h2
    exact absurd h2 (by decide)
  · intro hmem
    have h2 : "failed" ∈ (trainEvents hasSupabase hasRunId batchLosses times epochs).filterMap statusOf :=
      List.mem_filterMap.2 ⟨TrainEvent.statusUpdate "failed", hmem, rfl⟩
    rw [hmain] at h2
    exact absurd h2 (by decide)

/-- Option-valued comparison with `none` standing for the initial
`float("inf")`: `bestLe x y` says the best-error value `x` is at most
`y`. -/
def bestLe : Option ℚ → Option ℚ → Bool
  | _, none => true
  | none, some _ => false
  | some a, some b => decide (a ≤ b)

theorem stepBest_bestLe (b : Option ℚ) (a : ℚ) : bestLe (stepBest b a) b = true := by
  cases b with
  | none => rfl
  | some m =>
    by_cases h : a < m
    · simp [stepBest, isBestStep, bestLe, h, le_of_lt h]
    · simp [stepBest, isBestStep, bestLe, h]

theorem trainGo_add (bl : ℕ → List ℚ) (tm : ℕ → ℚ) (E : ℕ) :
    ∀ (k₁ k₂ e : ℕ) (b : Option ℚ),
      trainGo bl tm E e (k₁ + k₂) b
        = ((trainGo bl tm E e k₁ b).1
             ++ (trainGo bl tm E (e + k₁) k₂ (trainGo bl tm E e k₁ b).2).1,
           (trainGo bl tm E (e + k₁) k₂ (trainGo bl tm E e k₁ b).2).2) := by
  intro k₁
  induction k₁ with
  | zero => intro k₂ e b; simp [trainGo]
  | succ k ih =>
    intro k₂ e b
    have h1 : k + 1 + k₂ = (k + k₂) + 1 := by omega
    rw [h1]
    simp only [trainGo]
    rw [ih]
    have h2 : e + 1 + k = e + (k + 1) := by omega
    simp [h2, List.append_assoc]

theorem trainGo_best_succ (bl : ℕ → List ℚ) (tm : ℕ → ℚ) (E n : ℕ) :
    (trainGo bl tm E 0 (n + 1) none).2
      = stepBest (trainGo bl tm E 0 n none).2 (epochAvg (bl n)) := by
  have h := trainGo_add bl tm E n 1 0 none
  rw [h]
  simp [trainGo]

theorem saveBest_mem_epochEvents {j e E : ℕ} {avg : ℚ} {ib : Bool} {eta : Option ℤ} :
    TrainEvent.saveBest j ∈ epochEvents e E avg ib eta ↔ (j = e ∧ ib = true) := by
  cases ib <;> by_cases h10 : (e + 1) % 10 = 0 <;>
    simp [epochEvents, h10]

theorem trainGo_saveBest_iff (bl : ℕ → List ℚ) (tm : ℕ → ℚ) (E : ℕ) :
    ∀ (k e : ℕ) (b : Option ℚ) (j : ℕ),
      TrainEvent.saveBest j ∈ (trainGo bl tm E e k b).1
        ↔ (e ≤ j ∧ j < e + k
            ∧ isBestStep (trainGo bl tm E e (j - e) b).2 (epochAvg (bl j)) = true) := by
  intro k
  induction k with
  | zero =>
    intro e b j
    simp only [trainGo, List.not_mem_nil, false_iff]
    intro h
    omega
  | succ k ih =>
    intro e b j
    have hsplit : TrainEvent.saveBest j ∈ (trainGo bl tm E e (k + 1) b).1
        ↔ ((j = e ∧ isBestStep b (epochAvg (bl e)) = true)
            ∨ TrainEvent.saveBest j ∈ (trainGo bl tm E (e + 1) k (stepBest b (epochAvg (bl e)))).1) := by
      simp [trainGo, List.mem_append, saveBest_mem_epochEvents]
    rw [hsplit, ih]
    have hpre : ∀ hj : e < j,
        (trainGo bl tm E e (j - e) b).2
          = (trainGo bl tm E (e + 1) (j - (e + 1)) (stepBest b (epochAvg (bl e)))).2 := by
      intro hj
      have h1 : j - e = 1 + (j - (e + 1)) := by omega
      rw [h1, trainGo_add bl tm E 1 (j - (e + 1)) e b]
      simp [trainGo]
    constructor
    · rintro (⟨rfl, hb⟩ | ⟨h1, h2, h3⟩)
      · refine ⟨le_refl _, by omega, ?_⟩
        simpa [trainGo] using hb
      · refine ⟨by omega, by omega, ?_⟩
        rw [hpre (by omega)]
        exact h3
    · rintro ⟨h1, h2, h3⟩
      by_cases hje : j = e
      · subst hje
        left
        exact ⟨rfl, by simpa [trainGo] using h3⟩
      · right
        rw [hpre (by omega)] at h3
        exact ⟨by omega, by omega, h3⟩

theorem isBestStep_stepBest (b : Option ℚ) (c a : ℚ) :
    isBestStep (stepBest b c) a = true ↔ (isBestStep b a = true ∧ a < c) := by
  cases b with
  | none => simp [stepBest, isBestStep]
  | some m =>
    by_cases h : c < m
    · simp only [stepBest, isBestStep, decide_eq_true_eq, if_pos h]
      constructor
      · intro ha; exact ⟨lt_trans ha h, ha⟩
      · exact fun h2 => h2.2
    · simp only [stepBest, isBestStep, decide_eq_true_eq, if_neg h]
      constructor
      · intro ha; exact ⟨ha, lt_of_lt_of_le ha (le_of_not_lt h)⟩
      · exact fun h2 => h2.1

theorem isBestStep_trainGo_iff (bl : ℕ → List ℚ) (tm : ℕ → ℚ) (E : ℕ) :
    ∀ (i e : ℕ) (b : Option ℚ) (a : ℚ),
      isBestStep (trainGo bl tm E e i b).2 a = true
        ↔ (isBestStep b a = true ∧ ∀ j, e ≤ j → j < e + i → a < epochAvg (bl j)) := by
  intro i
  induction i with
  | zero =>
    intro e b a
    simp only [trainGo]
    constructor
    · intro h
      exact ⟨h, fun j h1 h2 => absurd h2 (by omega)⟩
    · exact fun h => h.1
  | succ i ih =>
    intro e b a
    have hb2 : (trainGo bl tm E e (i + 1) b).2
        = (trainGo bl tm E (e + 1) i (stepBest b (epochAvg (bl e)))).2 := by
      simp [trainGo]
    rw [hb2, ih, isBestStep_stepBest]
    constructor
    · rintro ⟨⟨hb, he⟩, hall⟩
      refine ⟨hb, fun j h1 h2 => ?_⟩
      by_cases hje : j = e
      · subst hje; exact he
      · exact hall j (by omega) (by omega)
    · rintro ⟨hb, hall⟩
      exact ⟨⟨hb, hall e (le_refl e) (by omega)⟩,
        fun j h1 h2 => hall j (by omega) (by omega)⟩

/-- C5: across every training run, the best-error value tracked with the
"best" checkpoint slot is non-increasing after every epoch, and the best
slot is written at (0-based) epoch `i` if and only if `i` is within the
run and epoch `i`'s averaged error is strictly lower than the averaged
error of every previous epoch — ties do not trigger an overwrite. -/
theorem best_checkpoint_policy (batchLosses : ℕ → List ℚ) (times : ℕ → ℚ) (epochs n i : ℕ) :
    bestLe (trainGo batchLosses times epochs 0 (n + 1) none).2
        (trainGo batchLosses times epochs 0 n none).2 = true
    ∧ (TrainEvent.saveBest i ∈ (trainGo batchLosses times epochs 0 epochs none).1
        ↔ (i < epochs ∧ ∀ j, j < i →
            epochAvg (batchLosses i) < epochAvg (batchLosses j))) := by
  constructor
  · rw [trainGo_best_succ]
    exact stepBest_bestLe _ _
  · rw [trainGo_saveBest_iff, isBestStep_trainGo_iff]
    simp only [Nat.zero_le, true_and, Nat.zero_add, Nat.sub_zero, isBestStep]
    constructor
    · rintro ⟨h1, h3⟩
      exact ⟨h1, fun j hj => h3 j trivial hj⟩
    · rintro ⟨h1, h2⟩
      exact ⟨h1, fun j _ hj => h2 j hj⟩
